/-
  Verification of the guardrail gateway core against its specification.

  Shallow embedding of:
  - guardrail/core/circuit_breaker.py  (CircuitBreaker three-state machine)
  - guardrail/core/orchestrator.py     (call_model, validate_text, aggregate_results)
  - guardrail/api/routes.py            (POST /v1/validate entry point)
  - py_common/schemas.py               (prediction contract)

  Conventions: the monotonic clock is modelled as a rational number passed
  explicitly at each point where the source reads `time.monotonic()`.
  Python ints become Lean `Int`; float scores and timestamps become `Rat`.
  The insertion-ordered Python dict `model_results` becomes an association
  list with replace-or-append update. Mutation of a breaker becomes explicit
  state passing: an operation returns the breaker after the call.
-/
import Mathlib

/-! ## Circuit breaker (guardrail/core/circuit_breaker.py) -/

/-- Circuit breaker states (`CircuitState` enum). -/
inductive CircuitState where
  | CLOSED
  | OPEN
  | HALF_OPEN
deriving DecidableEq, Repr

/-- Python `CircuitState.name` as used by `get_status`. -/
def CircuitState.pyName : CircuitState → String
  | .CLOSED => "CLOSED"
  | .OPEN => "OPEN"
  | .HALF_OPEN => "HALF_OPEN"

/-- The `CircuitBreaker` dataclass.  Counters are Python ints (`Int` here);
timestamps and the recovery timeout are floats read from a monotonic clock
(`Rat` here). -/
structure CircuitBreaker where
  name : String
  failure_threshold : Int
  recovery_timeout : Rat
  success_threshold : Int
  _state : CircuitState
  _failure_count : Int
  _success_count : Int
  _last_failure_time : Rat
deriving DecidableEq, Repr

namespace CircuitBreaker

/-- A freshly constructed breaker: `CLOSED`, zero counters, zero timestamp. -/
def initBreaker (name : String) (failure_threshold : Int) (recovery_timeout : Rat)
    (success_threshold : Int) : CircuitBreaker :=
  { name := name
    failure_threshold := failure_threshold
    recovery_timeout := recovery_timeout
    success_threshold := success_threshold
    _state := CircuitState.CLOSED
    _failure_count := 0
    _success_count := 0
    _last_failure_time := 0 }

/-- `_transition_to`: set the state and reset counters on state change
(failure count on entering CLOSED, success count on entering HALF_OPEN). -/
def transition_to (cb : CircuitBreaker) (new_state : CircuitState) : CircuitBreaker :=
  let cb := { cb with _state := new_state }
  match new_state with
  | CircuitState.CLOSED => { cb with _failure_count := 0 }
  | CircuitState.HALF_OPEN => { cb with _success_count := 0 }
  | CircuitState.OPEN => cb

/-- The `state` property: reading it checks for timeout recovery, possibly
transitioning `OPEN → HALF_OPEN`.  Returns the observed state and the
breaker after the read (the read mutates). -/
def state (cb : CircuitBreaker) (now : Rat) : CircuitState × CircuitBreaker :=
  if cb._state = CircuitState.OPEN ∧ now - cb._last_failure_time ≥ cb.recovery_timeout then
    let cb' := transition_to cb CircuitState.HALF_OPEN
    (cb'._state, cb')
  else
    (cb._state, cb)

/-- `allow_request`: true in CLOSED and HALF_OPEN, false in OPEN; the
`state` read may first transition `OPEN → HALF_OPEN`. -/
def allow_request (cb : CircuitBreaker) (now : Rat) : Bool × CircuitBreaker :=
  let s := state cb now
  if s.1 = CircuitState.CLOSED then (true, s.2)
  else if s.1 = CircuitState.HALF_OPEN then (true, s.2)
  else (false, s.2)

/-- `record_success`: in HALF_OPEN increment the success counter and close
at the threshold; in CLOSED reset the failure counter; in OPEN do nothing. -/
def record_success (cb : CircuitBreaker) : CircuitBreaker :=
  match cb._state with
  | CircuitState.HALF_OPEN =>
    let cb := { cb with _success_count := cb._success_count + 1 }
    if cb._success_count ≥ cb.success_threshold then
      transition_to cb CircuitState.CLOSED
    else cb
  | CircuitState.CLOSED => { cb with _failure_count := 0 }
  | CircuitState.OPEN => cb

/-- `record_failure`: unconditionally increment the failure counter and
stamp `last_failure_time`, then transition HALF_OPEN → OPEN, or
CLOSED → OPEN once the threshold is reached. -/
def record_failure (cb : CircuitBreaker) (now : Rat) : CircuitBreaker :=
  let cb := { cb with
    _failure_count := cb._failure_count + 1
    _last_failure_time := now }
  match cb._state with
  | CircuitState.HALF_OPEN => transition_to cb CircuitState.OPEN
  | CircuitState.CLOSED =>
    if cb._failure_count ≥ cb.failure_threshold then
      transition_to cb CircuitState.OPEN
    else cb
  | CircuitState.OPEN => cb

/-- `force_close`: administrative transition to CLOSED. -/
def force_close (cb : CircuitBreaker) : CircuitBreaker :=
  transition_to cb CircuitState.CLOSED

/-- `force_open`: stamp `last_failure_time` and transition to OPEN. -/
def force_open (cb : CircuitBreaker) (now : Rat) : CircuitBreaker :=
  { cb with _last_failure_time := now }.transition_to CircuitState.OPEN

/-- The status snapshot returned by `get_status`. -/
structure Status where
  name : String
  state : String
  failure_count : Int
  success_count : Int
  last_failure_time : Rat
deriving DecidableEq, Repr

/-- `get_status`: builds the snapshot.  It reads the `state` property first
(which can transition `OPEN → HALF_OPEN`) and then reads the counters of
the breaker as mutated by that read. -/
def get_status (cb : CircuitBreaker) (now : Rat) : Status × CircuitBreaker :=
  let s := state cb now
  ({ name := s.2.name
     state := s.1.pyName
     failure_count := s.2._failure_count
     success_count := s.2._success_count
     last_failure_time := s.2._last_failure_time }, s.2)

end CircuitBreaker

/-! ### Event sequences over one breaker -/

/-- One externally observable breaker event; each clock-reading event
carries the monotonic time at which it happens. -/
inductive CBEvent where
  | allowRequest (now : Rat)
  | recordSuccess
  | recordFailure (now : Rat)
  | forceOpen (now : Rat)
  | forceClose
deriving DecidableEq, Repr

/-- Apply one event to a breaker. -/
def cbStep (cb : CircuitBreaker) : CBEvent → CircuitBreaker
  | CBEvent.allowRequest now => (cb.allow_request now).2
  | CBEvent.recordSuccess => cb.record_success
  | CBEvent.recordFailure now => cb.record_failure now
  | CBEvent.forceOpen now => cb.force_open now
  | CBEvent.forceClose => cb.force_close

/-- Run a finite event sequence. -/
def runEvents (cb : CircuitBreaker) (evs : List CBEvent) : CircuitBreaker :=
  evs.foldl cbStep cb

/-- Reachable-state invariant of the breaker machine: positive thresholds,
non-negative counters, a CLOSED breaker below its failure threshold and a
HALF_OPEN breaker below its success threshold. -/
def CBInv (cb : CircuitBreaker) : Prop :=
  1 ≤ cb.failure_threshold ∧ 1 ≤ cb.success_threshold ∧
  0 ≤ cb._failure_count ∧ 0 ≤ cb._success_count ∧
  (cb._state = CircuitState.CLOSED → cb._failure_count < cb.failure_threshold) ∧
  (cb._state = CircuitState.HALF_OPEN → cb._success_count < cb.success_threshold)

theorem cbInv_state (cb : CircuitBreaker) (now : Rat) (h : CBInv cb) :
    CBInv (CircuitBreaker.state cb now).2 := by
  obtain ⟨hft, hst, hfc, hsc, hcl, hho⟩ := h
  simp only [CircuitBreaker.state, CircuitBreaker.transition_to]
  split
  · simp only [CBInv]
    simp_all
    omega
  · exact ⟨hft, hst, hfc, hsc, hcl, hho⟩

theorem cbInv_allow_request (cb : CircuitBreaker) (now : Rat) (h : CBInv cb) :
    CBInv (cb.allow_request now).2 := by
  have h2 := cbInv_state cb now h
  simp only [CircuitBreaker.allow_request]
  split_ifs <;> exact h2

theorem cbInv_record_success (cb : CircuitBreaker) (h : CBInv cb) :
    CBInv cb.record_success := by
  obtain ⟨hft, hst, hfc, hsc, hcl, hho⟩ := h
  cases hs : cb._state with
  | HALF_OPEN =>
    simp only [CircuitBreaker.record_success, hs, CircuitBreaker.transition_to, CBInv]
    split_ifs with h1 <;> simp_all <;> omega
  | CLOSED =>
    simp only [CircuitBreaker.record_success, hs, CBInv]
    simp_all
    omega
  | OPEN =>
    simp only [CircuitBreaker.record_success, hs]
    exact ⟨hft, hst, hfc, hsc, hcl, hho⟩

theorem cbInv_record_failure (cb : CircuitBreaker) (now : Rat) (h : CBInv cb) :
    CBInv (cb.record_failure now) := by
  obtain ⟨hft, hst, hfc, hsc, hcl, hho⟩ := h
  cases hs : cb._state with
  | HALF_OPEN =>
    simp only [CircuitBreaker.record_failure, hs, CircuitBreaker.transition_to, CBInv]
    simp_all
    omega
  | CLOSED =>
    simp only [CircuitBreaker.record_failure, hs, CircuitBreaker.transition_to, CBInv]
    split_ifs with h1 <;> simp_all <;> omega
  | OPEN =>
    simp only [CircuitBreaker.record_failure, hs, CBInv]
    simp_all
    omega

theorem cbInv_force_open (cb : CircuitBreaker) (now : Rat) (h : CBInv cb) :
    CBInv (cb.force_open now) := by
  obtain ⟨hft, hst, hfc, hsc, hcl, hho⟩ := h
  simp only [CircuitBreaker.force_open, CircuitBreaker.transition_to, CBInv]
  simp_all

theorem cbInv_force_close (cb : CircuitBreaker) (h : CBInv cb) :
    CBInv cb.force_close := by
  obtain ⟨hft, hst, hfc, hsc, hcl, hho⟩ := h
  simp only [CircuitBreaker.force_close, CircuitBreaker.transition_to, CBInv]
  simp_all
  omega

theorem cbInv_step (cb : CircuitBreaker) (e : CBEvent) (h : CBInv cb) :
    CBInv (cbStep cb e) := by
  cases e with
  | allowRequest now => exact cbInv_allow_request cb now h
  | recordSuccess => exact cbInv_record_success cb h
  | recordFailure now => exact cbInv_record_failure cb now h
  | forceOpen now => exact cbInv_force_open cb now h
  | forceClose => exact cbInv_force_close cb h

theorem cbInv_runEvents (cb : CircuitBreaker) (evs : List CBEvent) (h : CBInv cb) :
    CBInv (runEvents cb evs) := by
  induction evs generalizing cb with
  | nil => exact h
  | cons e rest ih => exact ih _ (cbInv_step cb e h)


/-! ## Schemas (py_common/schemas.py) -/

/-- The raw field content of a backend `/predict` reply body
(`ModelPredictResponse` before pydantic validation). -/
structure ModelPredictResponse where
  flagged : Bool
  score : Rat
  details : List String
  latency_ms : Int
deriving DecidableEq, Repr

/-- `ModelPredictResponse.model_validate`: pydantic accepts the body only
when `0 ≤ score ≤ 1` (`ge=0.0, le=1.0`) and `0 ≤ latency_ms` (`ge=0`);
otherwise it raises a validation error, modelled as `none`. -/
def modelValidate (r : ModelPredictResponse) : Option ModelPredictResponse :=
  if 0 ≤ r.score ∧ r.score ≤ 1 ∧ 0 ≤ r.latency_ms then some r else none

/-- `ModelResultResponse`: the per-backend entry of `model_results`. -/
structure ModelResultResponse where
  flagged : Bool
  score : Rat
  details : List String
  latency_ms : Int
deriving DecidableEq, Repr

/-- Building a `ModelResultResponse` from a validated prediction, field by
field as in `validate_text`. -/
def toModelResult (p : ModelPredictResponse) : ModelResultResponse :=
  { flagged := p.flagged
    score := p.score
    details := p.details
    latency_ms := p.latency_ms }

/-- `ValidateResponse`: the aggregated verdict.  `model_results` is a
Python insertion-ordered dict, modelled as an association list. -/
structure ValidateResponse where
  request_id : String
  flagged : Bool
  flag_reasons : List String
  model_results : List (String × ModelResultResponse)
  partial_failure : Bool
  failed_models : List String
  latency_ms : Int
deriving DecidableEq, Repr

/-! ## Orchestrator (guardrail/core/orchestrator.py) -/

/-- `AggregationStrategy` enum. -/
inductive AggregationStrategy where
  | ANY_FLAG
  | ALL_FLAG
  | MAJORITY
  | THRESHOLD
deriving DecidableEq, Repr

/-- `aggregate_results`: collapse `model_results` into one boolean.
`sum(flags)` counts the `True` entries; `len(flags) / 2` and the average
score are float divisions, modelled over `Rat`. -/
def aggregate_results (model_results : List (String × ModelResultResponse))
    (strategy : AggregationStrategy) : Bool :=
  if model_results.isEmpty then false
  else
    let flags := model_results.map (fun p => p.2.flagged)
    match strategy with
    | AggregationStrategy.ANY_FLAG => flags.any id
    | AggregationStrategy.ALL_FLAG => flags.all id
    | AggregationStrategy.MAJORITY =>
      decide (((flags.count true : Int) : Rat) > (flags.length : Rat) / 2)
    | AggregationStrategy.THRESHOLD =>
      decide ((model_results.map (fun p => p.2.score)).sum
        / (model_results.length : Rat) > (0.5 : Rat))

/-- `ModelCallResult` dataclass. -/
structure ModelCallResult where
  model_name : String
  success : Bool
  response : Option ModelPredictResponse
  error : Option String
deriving DecidableEq, Repr

/-- What one HTTP attempt against a backend does: raise a timeout, raise a
connection error, come back non-2xx (raised by `raise_for_status`), or
come back 2xx with a JSON body to be validated. -/
inductive AttemptOutcome where
  | timeout
  | connectError
  | httpStatus (code : Nat)
  | ok (body : ModelPredictResponse)
deriving DecidableEq, Repr

/-- The exception taxonomy visible inside `call_model`'s handlers:
`httpx.TimeoutException`, `httpx.ConnectError`, `httpx.HTTPStatusError`,
and the pydantic validation error caught by the generic handler. -/
inductive CallError where
  | timeout
  | connectError
  | httpStatus (code : Nat)
  | parse
deriving DecidableEq, Repr

/-- The retry predicate of the `@retry` decorator:
`retry_if_exception_type((httpx.TimeoutException, httpx.ConnectError))`. -/
def isTransient : CallError → Bool
  | CallError.timeout => true
  | CallError.connectError => true
  | CallError.httpStatus _ => false
  | CallError.parse => false

/-- One attempt of `_call_with_retry`'s body: POST, `raise_for_status`,
then `ModelPredictResponse.model_validate` on the body. -/
def singleAttempt (o : AttemptOutcome) : Except CallError ModelPredictResponse :=
  match o with
  | AttemptOutcome.timeout => Except.error CallError.timeout
  | AttemptOutcome.connectError => Except.error CallError.connectError
  | AttemptOutcome.httpStatus code => Except.error (CallError.httpStatus code)
  | AttemptOutcome.ok body =>
    match modelValidate body with
    | some p => Except.ok p
    | none => Except.error CallError.parse

/-- The tenacity retry loop (`stop_after_attempt`, `wait_fixed`,
`retry_if_exception_type`, `reraise=True`).  `env i` is the outcome of the
i-th attempt; `remaining` is the attempt budget still allowed.  Returns the
final result, the number of attempts performed, and the total fixed-wait
time slept between attempts.  Tenacity always performs the first attempt,
so a budget of 0 or 1 means exactly one attempt. -/
def retryGo (env : Nat → AttemptOutcome) (waitMs : Nat) :
    Nat → Nat → Except CallError ModelPredictResponse × Nat × Nat
  | i, 0 => (singleAttempt (env i), 1, 0)
  | i, 1 => (singleAttempt (env i), 1, 0)
  | i, n + 2 =>
    match singleAttempt (env i) with
    | Except.ok p => (Except.ok p, 1, 0)
    | Except.error e =>
      if isTransient e then
        let r := retryGo env waitMs (i + 1) (n + 1)
        (r.1, r.2.1 + 1, r.2.2 + waitMs)
      else (Except.error e, 1, 0)

/-- `_call_with_retry` as decorated: at most `maxAttempts` total attempts
(`RETRY_MAX_ATTEMPTS`), waiting `waitMs` (`RETRY_WAIT_MS`) between them. -/
def callWithRetry (env : Nat → AttemptOutcome) (maxAttempts waitMs : Nat) :
    Except CallError ModelPredictResponse × Nat × Nat :=
  retryGo env waitMs 0 maxAttempts

/-- The error strings built by `call_model`'s exception handlers. -/
def errorMessage (model_name : String) (maxAttempts : Nat) : CallError → String
  | CallError.timeout =>
    "Timeout calling " ++ model_name ++ " (after " ++ toString maxAttempts ++ " attempts)"
  | CallError.connectError =>
    "Connection error calling " ++ model_name ++ " (after " ++ toString maxAttempts
      ++ " attempts)"
  | CallError.httpStatus code =>
    "HTTP error from " ++ model_name ++ ": " ++ toString code
  | CallError.parse => "Error calling " ++ model_name ++ ": validation error"

/-- `call_model`: consult the breaker (returning a breaker-open outcome
without recording anything if rejected), run the attempt(s) with or
without retry, then record success or failure on the breaker.
`nowAllow` and `nowRecord` are the monotonic clock readings at the
breaker check and at the failure recording. -/
def call_model (model_name : String) (cb : CircuitBreaker) (nowAllow nowRecord : Rat)
    (env : Nat → AttemptOutcome) (retryEnabled : Bool) (maxAttempts waitMs : Nat) :
    ModelCallResult × CircuitBreaker :=
  let ar := cb.allow_request nowAllow
  if ar.1 = false then
    ({ model_name := model_name
       success := false
       response := none
       error := some ("Circuit breaker open for " ++ model_name) }, ar.2)
  else
    let res := if retryEnabled then (callWithRetry env maxAttempts waitMs).1
               else singleAttempt (env 0)
    match res with
    | Except.ok p =>
      ({ model_name := model_name
         success := true
         response := some p
         error := none }, ar.2.record_success)
    | Except.error e =>
      ({ model_name := model_name
         success := false
         response := none
         error := some (errorMessage model_name maxAttempts e) },
       ar.2.record_failure nowRecord)

/-- Python dict assignment `d[k] = v` for an insertion-ordered dict:
replace in place if the key exists, else append. -/
def dictInsert {β : Type} (m : List (String × β)) (k : String) (v : β) :
    List (String × β) :=
  if k ∈ m.map Prod.fst then m.map (fun p => if p.1 = k then (k, v) else p)
  else m ++ [(k, v)]

/-- One iteration of the result-processing loop of `validate_text`:
a successful result with a response goes into `model_results` (and into
`flag_reasons` when flagged); anything else goes into `failed_models`. -/
def processStep
    (acc : List (String × ModelResultResponse) × List String × List String)
    (r : ModelCallResult) :
    List (String × ModelResultResponse) × List String × List String :=
  match r.success, r.response with
  | true, some p =>
    (dictInsert acc.1 r.model_name (toModelResult p),
     acc.2.1,
     if p.flagged then acc.2.2 ++ [r.model_name ++ "_flagged"] else acc.2.2)
  | _, _ => (acc.1, acc.2.1 ++ [r.model_name], acc.2.2)

/-- The result-processing loop of `validate_text`, in `results` order:
returns `(model_results, failed_models, flag_reasons)`. -/
def processResults (results : List ModelCallResult) :
    List (String × ModelResultResponse) × List String × List String :=
  results.foldl processStep ([], [], [])

/-- The per-backend results of the parallel fan-out, in `enabled` order
(`asyncio.gather` preserves task order).  `cbs` gives each backend's
breaker and `env n` the attempt outcomes of backend `n`. -/
def callResults (enabled : List String) (cbs : String → CircuitBreaker)
    (nowAllow nowRecord : Rat) (env : String → Nat → AttemptOutcome)
    (retryEnabled : Bool) (maxAttempts waitMs : Nat) : List ModelCallResult :=
  enabled.map (fun n =>
    (call_model n (cbs n) nowAllow nowRecord (env n) retryEnabled maxAttempts waitMs).1)

/-- `validate_text`: fan out, process results, aggregate.  The wall-clock
latency measurement is not modelled (reported as 0). -/
def validate_text (request_id : String) (enabled : List String)
    (strategy : AggregationStrategy) (cbs : String → CircuitBreaker)
    (nowAllow nowRecord : Rat) (env : String → Nat → AttemptOutcome)
    (retryEnabled : Bool) (maxAttempts waitMs : Nat) : ValidateResponse :=
  let results := callResults enabled cbs nowAllow nowRecord env retryEnabled maxAttempts waitMs
  let processed := processResults results
  { request_id := request_id
    flagged := aggregate_results processed.1 strategy
    flag_reasons := processed.2.2
    model_results := processed.1
    partial_failure := decide (0 < processed.2.1.length)
    failed_models := processed.2.1
    latency_ms := 0 }

/-! ## Routes (guardrail/api/routes.py) -/

/-- `settings.model_urls.keys()` in configured order. -/
def configuredModels : List String :=
  ["prompt-guard", "pii-detect", "hate-detect", "content-class"]

/-- The `POST /v1/validate` handler: empty API key gives 401; it calls the
orchestrator over all configured backends with the `ANY_FLAG` strategy,
then maps `partial_failure ∧ len(failed_models) == 4` to a 503.
`Except.error n` models `raise HTTPException(status_code=n)`. -/
def validate_route (x_api_key : String) (request_id : String)
    (cbs : String → CircuitBreaker) (nowAllow nowRecord : Rat)
    (env : String → Nat → AttemptOutcome) (retryEnabled : Bool)
    (maxAttempts waitMs : Nat) : Except Nat ValidateResponse :=
  if x_api_key = "" then Except.error 401
  else
    let result := validate_text request_id configuredModels AggregationStrategy.ANY_FLAG
      cbs nowAllow nowRecord env retryEnabled maxAttempts waitMs
    if result.partial_failure = true ∧ result.failed_models.length = 4 then
      Except.error 503
    else Except.ok result

/-! ## Helper lemmas on the result-processing loop -/

/-- Cons-style reformulation of the processing loop, used for induction.
Coincides with `processResults` whenever the result names are distinct
(proved in `processResults_eq_simple`). -/
def processResultsSimple : List ModelCallResult →
    List (String × ModelResultResponse) × List String × List String
  | [] => ([], [], [])
  | r :: rest =>
    let t := processResultsSimple rest
    match r.success, r.response with
    | true, some p =>
      ((r.model_name, toModelResult p) :: t.1, t.2.1,
        (if p.flagged then [r.model_name ++ "_flagged"] else []) ++ t.2.2)
    | _, _ => (t.1, r.model_name :: t.2.1, t.2.2)

theorem dictInsert_of_not_mem {β : Type} (m : List (String × β)) (k : String) (v : β)
    (h : k ∉ m.map Prod.fst) : dictInsert m k v = m ++ [(k, v)] := by
  simp [dictInsert, h]

theorem processResults_go (rs : List ModelCallResult)
    (acc : List (String × ModelResultResponse) × List String × List String)
    (hdisj : ∀ r ∈ rs, r.model_name ∉ acc.1.map Prod.fst)
    (hnd : (rs.map ModelCallResult.model_name).Nodup) :
    rs.foldl processStep acc =
      (acc.1 ++ (processResultsSimple rs).1,
       acc.2.1 ++ (processResultsSimple rs).2.1,
       acc.2.2 ++ (processResultsSimple rs).2.2) := by
  induction rs generalizing acc with
  | nil => simp [processResultsSimple]
  | cons r rest ih =>
    simp only [List.map_cons, List.nodup_cons] at hnd
    obtain ⟨hnotin, hnd'⟩ := hnd
    simp only [List.foldl_cons]
    cases hs : r.success with
    | false =>
      have hstep : processStep acc r = (acc.1, acc.2.1 ++ [r.model_name], acc.2.2) := by
        simp [processStep, hs]
      rw [hstep, ih (acc.1, acc.2.1 ++ [r.model_name], acc.2.2)
        (fun r' hr' => hdisj r' (List.mem_cons_of_mem r hr')) hnd']
      simp [processResultsSimple, hs, List.append_assoc]
    | true =>
      cases hr : r.response with
      | none =>
        have hstep : processStep acc r = (acc.1, acc.2.1 ++ [r.model_name], acc.2.2) := by
          simp [processStep, hs, hr]
        rw [hstep, ih (acc.1, acc.2.1 ++ [r.model_name], acc.2.2)
          (fun r' hr' => hdisj r' (List.mem_cons_of_mem r hr')) hnd']
        simp [processResultsSimple, hs, hr, List.append_assoc]
      | some p =>
        have hstep : processStep acc r =
            (acc.1 ++ [(r.model_name, toModelResult p)], acc.2.1,
              if p.flagged then acc.2.2 ++ [r.model_name ++ "_flagged"] else acc.2.2) := by
          simp only [processStep, hs, hr]
          rw [dictInsert_of_not_mem _ _ _ (hdisj r (List.mem_cons_self r rest))]
        rw [hstep]
        rw [ih _ ?_ hnd']
        · cases hp : p.flagged <;>
            simp [processResultsSimple, hs, hr, hp, List.append_assoc]
        · intro r' hr'
          simp only [List.map_append, List.map_cons, List.mem_append]
          rintro (hmem | hmem)
          · exact hdisj r' (List.mem_cons_of_mem r hr') hmem
          · simp only [List.map_nil, List.mem_cons, List.not_mem_nil, or_false] at hmem
            exact hnotin (hmem ▸ List.mem_map_of_mem ModelCallResult.model_name hr')

theorem processResults_eq_simple (rs : List ModelCallResult)
    (hnd : (rs.map ModelCallResult.model_name).Nodup) :
    processResults rs = processResultsSimple rs := by
  have h := processResults_go rs ([], [], []) (by simp) hnd
  simpa [processResults] using h

theorem simple_keys (rs : List ModelCallResult) :
    (processResultsSimple rs).1.map Prod.fst =
      (rs.filter (fun r => r.success && r.response.isSome)).map
        ModelCallResult.model_name := by
  induction rs with
  | nil => simp [processResultsSimple]
  | cons r rest ih =>
    cases hs : r.success with
    | false => simp [processResultsSimple, hs, ih]
    | true =>
      cases hr : r.response with
      | none => simp [processResultsSimple, hs, hr, ih]
      | some p => simp [processResultsSimple, hs, hr, ih]

theorem simple_failed (rs : List ModelCallResult) :
    (processResultsSimple rs).2.1 =
      (rs.filter (fun r => !(r.success && r.response.isSome))).map
        ModelCallResult.model_name := by
  induction rs with
  | nil => simp [processResultsSimple]
  | cons r rest ih =>
    cases hs : r.success with
    | false => simp [processResultsSimple, hs, ih]
    | true =>
      cases hr : r.response with
      | none => simp [processResultsSimple, hs, hr, ih]
      | some p => simp [processResultsSimple, hs, hr, ih]

theorem simple_length (rs : List ModelCallResult) :
    (processResultsSimple rs).1.length + (processResultsSimple rs).2.1.length
      = rs.length := by
  induction rs with
  | nil => simp [processResultsSimple]
  | cons r rest ih =>
    cases hs : r.success with
    | false => simp [processResultsSimple, hs]; omega
    | true =>
      cases hr : r.response with
      | none => simp [processResultsSimple, hs, hr]; omega
      | some p => simp [processResultsSimple, hs, hr]; omega

theorem simple_reasons (rs : List ModelCallResult) :
    (processResultsSimple rs).2.2 =
      ((processResultsSimple rs).1.filter (fun p => p.2.flagged)).map
        (fun p => p.1 ++ "_flagged") := by
  induction rs with
  | nil => simp [processResultsSimple]
  | cons r rest ih =>
    cases hs : r.success with
    | false => simp [processResultsSimple, hs, ih]
    | true =>
      cases hr : r.response with
      | none => simp [processResultsSimple, hs, hr, ih]
      | some p =>
        cases hp : p.flagged with
        | false => simp [processResultsSimple, hs, hr, hp, ih, toModelResult]
        | true => simp [processResultsSimple, hs, hr, hp, ih, toModelResult]

theorem simple_entries (rs : List ModelCallResult) :
    ∀ e ∈ (processResultsSimple rs).1, ∃ r ∈ rs, ∃ p,
      r.success = true ∧ r.response = some p ∧ e = (r.model_name, toModelResult p) := by
  induction rs with
  | nil => simp [processResultsSimple]
  | cons r rest ih =>
    intro e he
    cases hs : r.success with
    | false =>
      simp only [processResultsSimple, hs] at he
      obtain ⟨r', hr', hrest⟩ := ih e he
      exact ⟨r', List.mem_cons_of_mem r hr', hrest⟩
    | true =>
      cases hr : r.response with
      | none =>
        simp only [processResultsSimple, hs, hr] at he
        obtain ⟨r', hr', hrest⟩ := ih e he
        exact ⟨r', List.mem_cons_of_mem r hr', hrest⟩
      | some p =>
        simp only [processResultsSimple, hs, hr, List.mem_cons] at he
        rcases he with he | he
        · exact ⟨r, List.mem_cons_self r rest, p, hs, hr, he⟩
        · obtain ⟨r', hr', hrest⟩ := ih e he
          exact ⟨r', List.mem_cons_of_mem r hr', hrest⟩

/-! ## Helper lemmas on the retry loop and `call_model` -/

theorem singleAttempt_ok (o : AttemptOutcome) (p : ModelPredictResponse)
    (h : singleAttempt o = Except.ok p) :
    0 ≤ p.score ∧ p.score ≤ 1 ∧ 0 ≤ p.latency_ms := by
  cases o with
  | timeout => simp [singleAttempt] at h
  | connectError => simp [singleAttempt] at h
  | httpStatus code => simp [singleAttempt] at h
  | ok body =>
    simp only [singleAttempt] at h
    cases hv : modelValidate body with
    | none => rw [hv] at h; simp at h
    | some q =>
      rw [hv] at h
      simp only [Except.ok.injEq] at h
      subst h
      simp only [modelValidate] at hv
      split at hv
      · next hr =>
        injection hv with hbq
        subst hbq
        exact hr
      · simp at hv

theorem retryGo_attempts_pos (env : Nat → AttemptOutcome) (w : Nat) :
    ∀ n i, 1 ≤ (retryGo env w i n).2.1 := by
  intro n
  induction n using Nat.strong_induction_on with
  | _ n ih =>
    intro i
    cases n with
    | zero => simp [retryGo]
    | succ m =>
      cases m with
      | zero => simp [retryGo]
      | succ k =>
        simp only [retryGo]
        cases h : singleAttempt (env i) with
        | ok p => simp
        | error e =>
          by_cases ht : isTransient e
          · simp only [ht, if_true]
            have := ih (k + 1) (by omega) (i + 1)
            omega
          · simp [ht]

theorem retryGo_attempts_le (env : Nat → AttemptOutcome) (w : Nat) :
    ∀ n i, (retryGo env w i n).2.1 ≤ max n 1 := by
  intro n
  induction n using Nat.strong_induction_on with
  | _ n ih =>
    intro i
    cases n with
    | zero => simp [retryGo]
    | succ m =>
      cases m with
      | zero => simp [retryGo]
      | succ k =>
        simp only [retryGo]
        cases h : singleAttempt (env i) with
        | ok p => simp
        | error e =>
          by_cases ht : isTransient e
          · simp only [ht, if_true]
            have h1 := ih (k + 1) (by omega) (i + 1)
            simp only [ge_iff_le, le_max_iff] at h1 ⊢
            omega
          · simp [ht]

theorem retryGo_wait (env : Nat → AttemptOutcome) (w : Nat) :
    ∀ n i, (retryGo env w i n).2.2 = ((retryGo env w i n).2.1 - 1) * w := by
  intro n
  induction n using Nat.strong_induction_on with
  | _ n ih =>
    intro i
    cases n with
    | zero => simp [retryGo]
    | succ m =>
      cases m with
      | zero => simp [retryGo]
      | succ k =>
        simp only [retryGo]
        cases h : singleAttempt (env i) with
        | ok p => simp
        | error e =>
          by_cases ht : isTransient e
          · simp only [ht, if_true]
            have h1 := ih (k + 1) (by omega) (i + 1)
            have h2 := retryGo_attempts_pos env w (k + 1) (i + 1)
            rw [h1, Nat.add_sub_cancel]
            have h3 : (retryGo env w (i + 1) (k + 1)).2.1 - 1 + 1
                = (retryGo env w (i + 1) (k + 1)).2.1 := by omega
            calc ((retryGo env w (i + 1) (k + 1)).2.1 - 1) * w + w
                = ((retryGo env w (i + 1) (k + 1)).2.1 - 1 + 1) * w := by ring
              _ = (retryGo env w (i + 1) (k + 1)).2.1 * w := by rw [h3]
          · simp [ht]

theorem retryGo_retried_transient (env : Nat → AttemptOutcome) (w : Nat) :
    ∀ n i j, j + 1 < (retryGo env w i n).2.1 →
      ∃ e, singleAttempt (env (i + j)) = Except.error e ∧ isTransient e = true := by
  intro n
  induction n using Nat.strong_induction_on with
  | _ n ih =>
    intro i j hj
    cases n with
    | zero => simp [retryGo] at hj
    | succ m =>
      cases m with
      | zero => simp [retryGo] at hj
      | succ k =>
        simp only [retryGo] at hj
        cases h : singleAttempt (env i) with
        | ok p => simp [h] at hj
        | error e =>
          by_cases ht : isTransient e
          · simp only [h, ht, if_true] at hj
            cases j with
            | zero => exact ⟨e, by simpa using h, ht⟩
            | succ j' =>
              have := ih (k + 1) (by omega) (i + 1) j' (by omega)
              obtain ⟨e', he', hte'⟩ := this
              exact ⟨e', by rw [show i + (j' + 1) = i + 1 + j' by omega]; exact he', hte'⟩
          · simp [h, ht] at hj

theorem retryGo_ok_origin (env : Nat → AttemptOutcome) (w : Nat) :
    ∀ n i p, (retryGo env w i n).1 = Except.ok p →
      ∃ j, singleAttempt (env j) = Except.ok p := by
  intro n
  induction n using Nat.strong_induction_on with
  | _ n ih =>
    intro i p hp
    cases n with
    | zero => exact ⟨i, by simpa [retryGo] using hp⟩
    | succ m =>
      cases m with
      | zero => exact ⟨i, by simpa [retryGo] using hp⟩
      | succ k =>
        simp only [retryGo] at hp
        cases h : singleAttempt (env i) with
        | ok q =>
          simp only [h] at hp
          exact ⟨i, by rw [h, hp]⟩
        | error e =>
          by_cases ht : isTransient e
          · simp only [h, ht, if_true] at hp
            exact ih (k + 1) (by omega) (i + 1) p hp
          · simp [h, ht] at hp

theorem retryGo_nontransient (env : Nat → AttemptOutcome) (w : Nat) (n i : Nat)
    (e : CallError) (h : singleAttempt (env i) = Except.error e)
    (ht : isTransient e = false) :
    retryGo env w i n = (Except.error e, 1, 0) := by
  cases n with
  | zero => simp [retryGo, h]
  | succ m =>
    cases m with
    | zero => simp [retryGo, h]
    | succ k => simp [retryGo, h, ht]

theorem call_model_name (model_name : String) (cb : CircuitBreaker)
    (nowAllow nowRecord : Rat) (env : Nat → AttemptOutcome) (retryEnabled : Bool)
    (maxAttempts waitMs : Nat) :
    (call_model model_name cb nowAllow nowRecord env retryEnabled maxAttempts waitMs).1.model_name
      = model_name := by
  simp only [call_model]
  split
  · rfl
  · split <;> rfl

theorem call_model_success_response (model_name : String) (cb : CircuitBreaker)
    (nowAllow nowRecord : Rat) (env : Nat → AttemptOutcome) (retryEnabled : Bool)
    (maxAttempts waitMs : Nat)
    (h : (call_model model_name cb nowAllow nowRecord env retryEnabled maxAttempts
      waitMs).1.success = true) :
    (call_model model_name cb nowAllow nowRecord env retryEnabled maxAttempts
      waitMs).1.response.isSome := by
  simp only [call_model] at h ⊢
  split at h
  · simp at h
  · split at h <;> split <;> simp_all

theorem call_model_response_score (model_name : String) (cb : CircuitBreaker)
    (nowAllow nowRecord : Rat) (env : Nat → AttemptOutcome) (retryEnabled : Bool)
    (maxAttempts waitMs : Nat) (p : ModelPredictResponse)
    (h : (call_model model_name cb nowAllow nowRecord env retryEnabled maxAttempts
      waitMs).1.response = some p) :
    0 ≤ p.score ∧ p.score ≤ 1 := by
  simp only [call_model] at h
  split at h
  · simp at h
  · split at h
    · next q heq =>
      simp only [Option.some.injEq] at h
      subst h
      split at heq
      · obtain ⟨j, hj⟩ := retryGo_ok_origin env waitMs maxAttempts 0 q heq
        obtain ⟨h1, h2, _⟩ := singleAttempt_ok _ _ hj
        exact ⟨h1, h2⟩
      · obtain ⟨h1, h2, _⟩ := singleAttempt_ok _ _ heq
        exact ⟨h1, h2⟩
    · simp at h

theorem allow_request_false_eq (cb : CircuitBreaker) (now : Rat)
    (h : (cb.allow_request now).1 = false) :
    cb.allow_request now = (false, cb) := by
  simp only [CircuitBreaker.allow_request, CircuitBreaker.state] at h ⊢
  split at h <;> split_ifs at h ⊢ <;> simp_all [CircuitBreaker.transition_to]

theorem call_model_breaker_open (model_name : String) (cb : CircuitBreaker)
    (nowAllow nowRecord : Rat) (env : Nat → AttemptOutcome) (retryEnabled : Bool)
    (maxAttempts waitMs : Nat)
    (h : (cb.allow_request nowAllow).1 = false) :
    call_model model_name cb nowAllow nowRecord env retryEnabled maxAttempts waitMs =
      ({ model_name := model_name
         success := false
         response := none
         error := some ("Circuit breaker open for " ++ model_name) }, cb) := by
  have heq := allow_request_false_eq cb nowAllow h
  simp only [call_model, heq, if_true]

/-! ## Claims -/

/-- C2: `aggregate_results` returns false on an empty `model_results` for
every strategy; under `ANY_FLAG` it is true iff some entry is flagged;
under `ALL_FLAG` true iff the map is non-empty and every entry is flagged;
under `MAJORITY` true iff the flagged count strictly exceeds half the
total (false on a tie); under `THRESHOLD` true iff the mean score is
strictly greater than 0.5. -/
theorem aggregate_results_spec (mrs : List (String × ModelResultResponse)) :
    (∀ s : AggregationStrategy, aggregate_results [] s = false) ∧
    (aggregate_results mrs AggregationStrategy.ANY_FLAG = true ↔
      ∃ p ∈ mrs, p.2.flagged = true) ∧
    (aggregate_results mrs AggregationStrategy.ALL_FLAG = true ↔
      mrs ≠ [] ∧ ∀ p ∈ mrs, p.2.flagged = true) ∧
    (aggregate_results mrs AggregationStrategy.MAJORITY = true ↔
      2 * (mrs.map (fun p => p.2.flagged)).count true > mrs.length) ∧
    (aggregate_results mrs AggregationStrategy.THRESHOLD = true ↔
      (mrs.map (fun p => p.2.score)).sum / (mrs.length : Rat) > 1 / 2) := by
  refine ⟨fun s => by cases s <;> rfl, ?_, ?_, ?_, ?_⟩
  · by_cases hm : mrs = []
    · subst hm; simp [aggregate_results]
    · have hne : mrs.isEmpty = false := by simpa using hm
      simp [aggregate_results, hne, List.any_eq_true]
  · by_cases hm : mrs = []
    · subst hm; simp [aggregate_results]
    · have hne : mrs.isEmpty = false := by simpa using hm
      simp [aggregate_results, hne, List.all_eq_true, hm]
  · by_cases hm : mrs = []
    · subst hm; simp [aggregate_results]
    · have hne : mrs.isEmpty = false := by simpa using hm
      simp only [aggregate_results, hne, Bool.false_eq_true, if_false,
        decide_eq_true_eq, List.length_map]
      rw [gt_iff_lt, div_lt_iff₀ (by norm_num : (0 : Rat) < 2)]
      push_cast
      constructor
      · intro h
        have h' : mrs.length < (mrs.map (fun p => p.2.flagged)).count true * 2 := by
          exact_mod_cast h
        omega
      · intro h
        have h' : mrs.length < (mrs.map (fun p => p.2.flagged)).count true * 2 := by
          omega
        exact_mod_cast h'
  · by_cases hm : mrs = []
    · subst hm; simp [aggregate_results]
    · have hne : mrs.isEmpty = false := by simpa using hm
      simp only [aggregate_results, hne, Bool.false_eq_true, if_false, decide_eq_true_eq]
      norm_num

/-- C5: when `allow_request` returns false, `call_model` returns the
breaker-open outcome and the breaker is returned completely unchanged:
same state, failure count, success count and last-failure time; neither
`record_success` nor `record_failure` runs on this path. -/
theorem breaker_open_outcome_frame (model_name : String) (cb : CircuitBreaker)
    (nowAllow nowRecord : Rat) (env : Nat → AttemptOutcome) (retryEnabled : Bool)
    (maxAttempts waitMs : Nat)
    (h : (cb.allow_request nowAllow).1 = false) :
    (call_model model_name cb nowAllow nowRecord env retryEnabled maxAttempts waitMs).1
        = { model_name := model_name
            success := false
            response := none
            error := some ("Circuit breaker open for " ++ model_name) } ∧
    (call_model model_name cb nowAllow nowRecord env retryEnabled maxAttempts waitMs).2
        = cb ∧
    (call_model model_name cb nowAllow nowRecord env retryEnabled maxAttempts
        waitMs).2._state = cb._state ∧
    (call_model model_name cb nowAllow nowRecord env retryEnabled maxAttempts
        waitMs).2._failure_count = cb._failure_count ∧
    (call_model model_name cb nowAllow nowRecord env retryEnabled maxAttempts
        waitMs).2._success_count = cb._success_count ∧
    (call_model model_name cb nowAllow nowRecord env retryEnabled maxAttempts
        waitMs).2._last_failure_time = cb._last_failure_time := by
  have heq := call_model_breaker_open model_name cb nowAllow nowRecord env retryEnabled
    maxAttempts waitMs h
  rw [heq]
  exact ⟨rfl, rfl, rfl, rfl, rfl, rfl⟩

/-- A breaker in the OPEN state, used to exercise the claims concretely. -/
def cbOpenEx : CircuitBreaker :=
  { name := "pii-detect"
    failure_threshold := 5
    recovery_timeout := 30
    success_threshold := 3
    _state := CircuitState.OPEN
    _failure_count := 5
    _success_count := 0
    _last_failure_time := 100 }

theorem breaker_open_outcome_frame_witness :
    (call_model "pii-detect" cbOpenEx 110 110 (fun _ => AttemptOutcome.timeout)
      true 2 10).2 = cbOpenEx :=
  (breaker_open_outcome_frame "pii-detect" cbOpenEx 110 110
    (fun _ => AttemptOutcome.timeout) true 2 10
    (by norm_num [cbOpenEx, CircuitBreaker.allow_request, CircuitBreaker.state]; rfl)).2.1

/-- C6: the retry loop performs at least one and at most
`max(retry_max_attempts, 1)` attempts; every attempt that was followed by
another failed with a transient error (timeout or connection error); the
total fixed wait is `(attempts - 1) * retry_wait_ms`; and a first attempt
failing with a non-transient error (HTTP status or parse) ends the call
after exactly one attempt with zero wait. -/
theorem retry_policy_spec (env : Nat → AttemptOutcome) (maxAttempts waitMs : Nat) :
    (1 ≤ (callWithRetry env maxAttempts waitMs).2.1 ∧
      (callWithRetry env maxAttempts waitMs).2.1 ≤ max maxAttempts 1) ∧
    (∀ j, j + 1 < (callWithRetry env maxAttempts waitMs).2.1 →
      ∃ e, singleAttempt (env j) = Except.error e ∧ isTransient e = true) ∧
    ((callWithRetry env maxAttempts waitMs).2.2
      = ((callWithRetry env maxAttempts waitMs).2.1 - 1) * waitMs) ∧
    (∀ e, singleAttempt (env 0) = Except.error e → isTransient e = false →
      callWithRetry env maxAttempts waitMs = (Except.error e, 1, 0)) := by
  refine ⟨⟨retryGo_attempts_pos env waitMs maxAttempts 0,
    retryGo_attempts_le env waitMs maxAttempts 0⟩, ?_, retryGo_wait env waitMs maxAttempts 0, ?_⟩
  · intro j hj
    have h := retryGo_retried_transient env waitMs maxAttempts 0 j hj
    simpa using h
  · intro e he ht
    exact retryGo_nontransient env waitMs maxAttempts 0 e he ht

theorem retry_policy_spec_witness :
    callWithRetry (fun _ => AttemptOutcome.httpStatus 500) 3 10
      = (Except.error (CallError.httpStatus 500), 1, 0) :=
  (retry_policy_spec (fun _ => AttemptOutcome.httpStatus 500) 3 10).2.2.2
    (CallError.httpStatus 500) rfl rfl

/-- C9: reading a breaker's `state` property is not side-effect free: on an
OPEN breaker whose recovery timeout has elapsed, the read itself — also the
`get_status` snapshot used by the debug endpoint — transitions the breaker
to HALF_OPEN and resets its success count to 0, and the returned snapshot
already shows the HALF_OPEN state and the reset counter. -/
theorem state_read_mutates (cb : CircuitBreaker) (now : Rat)
    (hs : cb._state = CircuitState.OPEN)
    (ht : now - cb._last_failure_time ≥ cb.recovery_timeout) :
    (CircuitBreaker.state cb now).1 = CircuitState.HALF_OPEN ∧
    (CircuitBreaker.state cb now).2._state = CircuitState.HALF_OPEN ∧
    (CircuitBreaker.state cb now).2._success_count = 0 ∧
    (cb.get_status now).1.state = "HALF_OPEN" ∧
    (cb.get_status now).1.success_count = 0 ∧
    (cb.get_status now).2._state = CircuitState.HALF_OPEN ∧
    (cb.get_status now).2._success_count = 0 := by
  simp [CircuitBreaker.state, CircuitBreaker.get_status, CircuitBreaker.transition_to,
    hs, ht, CircuitState.pyName]

theorem state_read_mutates_witness :
    (cbOpenEx.get_status 140).1.state = "HALF_OPEN" ∧
    (cbOpenEx.get_status 140).2._state = CircuitState.HALF_OPEN :=
  ⟨(state_read_mutates cbOpenEx 140 (by decide) (by norm_num [cbOpenEx])).2.2.2.1,
   (state_read_mutates cbOpenEx 140 (by decide) (by norm_num [cbOpenEx])).2.2.2.2.2.1⟩

/-- C10: `record_failure` increments the failure count and stamps the
last-failure time with the current clock in every state; on an already
OPEN breaker no transition happens, and the recovery window restarts at
the new timestamp: a later state read recovers to HALF_OPEN exactly when
the timeout has elapsed since this failure, so any earlier read still
sees OPEN. -/
theorem record_failure_always_counts (cb : CircuitBreaker) (now : Rat) :
    ((cb.record_failure now)._failure_count = cb._failure_count + 1 ∧
     (cb.record_failure now)._last_failure_time = now) ∧
    (cb._state = CircuitState.OPEN →
      (cb.record_failure now)._state = CircuitState.OPEN ∧
      (∀ t : Rat, ((cb.record_failure now).state t).1 = CircuitState.HALF_OPEN ↔
        t - now ≥ cb.recovery_timeout) ∧
      (∀ t : Rat, t - now < cb.recovery_timeout →
        ((cb.record_failure now).state t).1 = CircuitState.OPEN)) := by
  constructor
  · cases hs : cb._state with
    | CLOSED =>
      simp only [CircuitBreaker.record_failure, hs]
      split_ifs <;> simp [CircuitBreaker.transition_to]
    | OPEN => simp [CircuitBreaker.record_failure, hs]
    | HALF_OPEN => simp [CircuitBreaker.record_failure, hs, CircuitBreaker.transition_to]
  · intro hs
    have hrf : cb.record_failure now = { cb with
        _failure_count := cb._failure_count + 1
        _last_failure_time := now } := by
      simp [CircuitBreaker.record_failure, hs]
    refine ⟨by rw [hrf]; exact hs, ?_, ?_⟩
    · intro t
      rw [hrf]
      by_cases hc : cb.recovery_timeout ≤ t - now
      · simp [CircuitBreaker.state, CircuitBreaker.transition_to, hs, hc]
      · simp [CircuitBreaker.state, CircuitBreaker.transition_to, hs, hc]
    · intro t hlt
      rw [hrf]
      simp [CircuitBreaker.state, CircuitBreaker.transition_to, hs, not_le.mpr hlt]

theorem record_failure_always_counts_witness :
    ((cbOpenEx.record_failure 200).state 210).1 = CircuitState.OPEN :=
  ((record_failure_always_counts cbOpenEx 200).2 (by decide)).2.2 210
    (by norm_num [cbOpenEx])

/-- C3: the breaker implements the three-state machine: it starts CLOSED;
in CLOSED the `record_failure` that brings the count to the threshold
goes to OPEN and stamps the failure time, otherwise it stays CLOSED; in
HALF_OPEN the `record_success` that reaches the success threshold goes to
CLOSED and resets the failure count, otherwise it stays HALF_OPEN; one
`record_failure` in HALF_OPEN goes to OPEN; `allow_request` is true in
CLOSED and HALF_OPEN and false in OPEN unless the recovery timeout has
elapsed, in which case it transitions to HALF_OPEN (resetting the success
count) and returns true; and along every event sequence the counters stay
non-negative, a CLOSED breaker has `failure_count < failure_threshold`
and a HALF_OPEN breaker has `success_count < success_threshold`. -/
theorem circuit_breaker_machine (nm : String) (ft st : Int) (rt : Rat)
    (hft : 1 ≤ ft) (hst : 1 ≤ st) :
    ((CircuitBreaker.initBreaker nm ft rt st)._state = CircuitState.CLOSED) ∧
    (∀ evs : List CBEvent, CBInv (runEvents (CircuitBreaker.initBreaker nm ft rt st) evs)) ∧
    (∀ (cb : CircuitBreaker) (now : Rat), cb._state = CircuitState.CLOSED →
      cb._failure_count + 1 = cb.failure_threshold →
        (cb.record_failure now)._state = CircuitState.OPEN ∧
        (cb.record_failure now)._last_failure_time = now) ∧
    (∀ (cb : CircuitBreaker) (now : Rat), cb._state = CircuitState.CLOSED →
      cb._failure_count + 1 < cb.failure_threshold →
        (cb.record_failure now)._state = CircuitState.CLOSED ∧
        (cb.record_failure now)._failure_count = cb._failure_count + 1) ∧
    (∀ cb : CircuitBreaker, cb._state = CircuitState.HALF_OPEN →
      cb._success_count + 1 = cb.success_threshold →
        cb.record_success._state = CircuitState.CLOSED ∧
        cb.record_success._failure_count = 0) ∧
    (∀ cb : CircuitBreaker, cb._state = CircuitState.HALF_OPEN →
      cb._success_count + 1 < cb.success_threshold →
        cb.record_success._state = CircuitState.HALF_OPEN ∧
        cb.record_success._success_count = cb._success_count + 1) ∧
    (∀ (cb : CircuitBreaker) (now : Rat), cb._state = CircuitState.HALF_OPEN →
      (cb.record_failure now)._state = CircuitState.OPEN) ∧
    (∀ (cb : CircuitBreaker) (now : Rat), cb._state = CircuitState.CLOSED →
      cb.allow_request now = (true, cb)) ∧
    (∀ (cb : CircuitBreaker) (now : Rat), cb._state = CircuitState.HALF_OPEN →
      cb.allow_request now = (true, cb)) ∧
    (∀ (cb : CircuitBreaker) (now : Rat), cb._state = CircuitState.OPEN →
      now - cb._last_failure_time < cb.recovery_timeout →
      cb.allow_request now = (false, cb)) ∧
    (∀ (cb : CircuitBreaker) (now : Rat), cb._state = CircuitState.OPEN →
      now - cb._last_failure_time ≥ cb.recovery_timeout →
        (cb.allow_request now).1 = true ∧
        (cb.allow_request now).2._state = CircuitState.HALF_OPEN ∧
        (cb.allow_request now).2._success_count = 0) := by
  refine ⟨rfl, ?_, ?_, ?_, ?_, ?_, ?_, ?_, ?_, ?_, ?_⟩
  · intro evs
    apply cbInv_runEvents
    exact ⟨hft, hst, le_refl 0, le_refl 0, fun _ => by simpa using hft,
      fun h => by simp [CircuitBreaker.initBreaker] at h⟩
  · intro cb now hs hreach
    have : cb.failure_threshold ≤ cb._failure_count + 1 := by omega
    simp [CircuitBreaker.record_failure, hs, this, CircuitBreaker.transition_to]
  · intro cb now hs hlt
    have : ¬ cb.failure_threshold ≤ cb._failure_count + 1 := by omega
    simp [CircuitBreaker.record_failure, hs, this]
  · intro cb hs hreach
    have : cb.success_threshold ≤ cb._success_count + 1 := by omega
    simp [CircuitBreaker.record_success, hs, this, CircuitBreaker.transition_to]
  · intro cb hs hlt
    have : ¬ cb.success_threshold ≤ cb._success_count + 1 := by omega
    simp [CircuitBreaker.record_success, hs, this]
  · intro cb now hs
    simp [CircuitBreaker.record_failure, hs, CircuitBreaker.transition_to]
  · intro cb now hs
    simp [CircuitBreaker.allow_request, CircuitBreaker.state, hs]
  · intro cb now hs
    simp [CircuitBreaker.allow_request, CircuitBreaker.state, hs]
  · intro cb now hs hlt
    simp [CircuitBreaker.allow_request, CircuitBreaker.state, hs, not_le.mpr hlt]
  · intro cb now hs helapsed
    simp [CircuitBreaker.allow_request, CircuitBreaker.state, hs, helapsed,
      CircuitBreaker.transition_to]

theorem circuit_breaker_machine_witness :
    CBInv (runEvents (CircuitBreaker.initBreaker "prompt-guard" 5 30 3)
      [CBEvent.recordFailure 1, CBEvent.recordFailure 2, CBEvent.allowRequest 3]) :=
  (circuit_breaker_machine "prompt-guard" 5 3 30 (by decide) (by decide)).2.1
    [CBEvent.recordFailure 1, CBEvent.recordFailure 2, CBEvent.allowRequest 3]

/-! ## Helper lemmas on the fan-out -/

theorem callResults_names (enabled : List String) (cbs : String → CircuitBreaker)
    (nowAllow nowRecord : Rat) (env : String → Nat → AttemptOutcome)
    (retryEnabled : Bool) (maxAttempts waitMs : Nat) :
    (callResults enabled cbs nowAllow nowRecord env retryEnabled maxAttempts waitMs).map
      ModelCallResult.model_name = enabled := by
  unfold callResults
  rw [List.map_map]
  have hcomp : (ModelCallResult.model_name ∘ fun n =>
      (call_model n (cbs n) nowAllow nowRecord (env n) retryEnabled maxAttempts waitMs).1)
      = fun n => n := by
    funext n
    exact call_model_name n (cbs n) nowAllow nowRecord (env n) retryEnabled maxAttempts waitMs
  rw [hcomp, List.map_id']

theorem callResults_mem_keys (enabled : List String) (cbs : String → CircuitBreaker)
    (nowAllow nowRecord : Rat) (env : String → Nat → AttemptOutcome)
    (retryEnabled : Bool) (maxAttempts waitMs : Nat) (hnd : enabled.Nodup) (n : String) :
    n ∈ (processResults (callResults enabled cbs nowAllow nowRecord env retryEnabled
        maxAttempts waitMs)).1.map Prod.fst ↔
      n ∈ enabled ∧ (call_model n (cbs n) nowAllow nowRecord (env n) retryEnabled
        maxAttempts waitMs).1.success = true := by
  have hnd' : ((callResults enabled cbs nowAllow nowRecord env retryEnabled maxAttempts
      waitMs).map ModelCallResult.model_name).Nodup := by
    rw [callResults_names]; exact hnd
  rw [processResults_eq_simple _ hnd', simple_keys]
  simp only [callResults, List.mem_map, List.mem_filter]
  constructor
  · rintro ⟨r, ⟨⟨m, hm, rfl⟩, hP⟩, hname⟩
    rw [call_model_name] at hname
    subst hname
    rw [Bool.and_eq_true] at hP
    exact ⟨hm, hP.1⟩
  · rintro ⟨hn, hsucc⟩
    refine ⟨(call_model n (cbs n) nowAllow nowRecord (env n) retryEnabled maxAttempts
      waitMs).1, ⟨⟨n, hn, rfl⟩, ?_⟩,
      call_model_name n (cbs n) nowAllow nowRecord (env n) retryEnabled maxAttempts waitMs⟩
    rw [Bool.and_eq_true]
    exact ⟨hsucc, call_model_success_response n (cbs n) nowAllow nowRecord (env n)
      retryEnabled maxAttempts waitMs hsucc⟩

theorem callResults_mem_failed (enabled : List String) (cbs : String → CircuitBreaker)
    (nowAllow nowRecord : Rat) (env : String → Nat → AttemptOutcome)
    (retryEnabled : Bool) (maxAttempts waitMs : Nat) (hnd : enabled.Nodup) (n : String) :
    n ∈ (processResults (callResults enabled cbs nowAllow nowRecord env retryEnabled
        maxAttempts waitMs)).2.1 ↔
      n ∈ enabled ∧ (call_model n (cbs n) nowAllow nowRecord (env n) retryEnabled
        maxAttempts waitMs).1.success = false := by
  have hnd' : ((callResults enabled cbs nowAllow nowRecord env retryEnabled maxAttempts
      waitMs).map ModelCallResult.model_name).Nodup := by
    rw [callResults_names]; exact hnd
  rw [processResults_eq_simple _ hnd', simple_failed]
  simp only [callResults, List.mem_map, List.mem_filter]
  constructor
  · rintro ⟨r, ⟨⟨m, hm, rfl⟩, hP⟩, hname⟩
    rw [call_model_name] at hname
    subst hname
    simp only [Bool.not_eq_eq_eq_not, Bool.not_true, Bool.and_eq_false_iff] at hP
    refine ⟨hm, ?_⟩
    rcases hP with hP | hP
    · exact hP
    · by_contra hcon
      have hs : (call_model m (cbs m) nowAllow nowRecord (env m) retryEnabled maxAttempts
          waitMs).1.success = true := by
        cases hx : (call_model m (cbs m) nowAllow nowRecord (env m) retryEnabled maxAttempts
          waitMs).1.success
        · exact absurd hx hcon
        · rfl
      have := call_model_success_response m (cbs m) nowAllow nowRecord (env m)
        retryEnabled maxAttempts waitMs hs
      simp [hP] at this
  · rintro ⟨hn, hfail⟩
    refine ⟨(call_model n (cbs n) nowAllow nowRecord (env n) retryEnabled maxAttempts
      waitMs).1, ⟨⟨n, hn, rfl⟩, ?_⟩,
      call_model_name n (cbs n) nowAllow nowRecord (env n) retryEnabled maxAttempts waitMs⟩
    simp [hfail]

theorem callResults_length (enabled : List String) (cbs : String → CircuitBreaker)
    (nowAllow nowRecord : Rat) (env : String → Nat → AttemptOutcome)
    (retryEnabled : Bool) (maxAttempts waitMs : Nat) (hnd : enabled.Nodup) :
    (processResults (callResults enabled cbs nowAllow nowRecord env retryEnabled
        maxAttempts waitMs)).1.length
      + (processResults (callResults enabled cbs nowAllow nowRecord env retryEnabled
        maxAttempts waitMs)).2.1.length = enabled.length := by
  have hnd' : ((callResults enabled cbs nowAllow nowRecord env retryEnabled maxAttempts
      waitMs).map ModelCallResult.model_name).Nodup := by
    rw [callResults_names]; exact hnd
  rw [processResults_eq_simple _ hnd', simple_length]
  simp [callResults]

theorem processResults_fold_entries (Q : String × ModelResultResponse → Prop) :
    ∀ (rs : List ModelCallResult)
      (acc : List (String × ModelResultResponse) × List String × List String),
      (∀ e ∈ acc.1, Q e) →
      (∀ r ∈ rs, ∀ p, r.success = true → r.response = some p →
        Q (r.model_name, toModelResult p)) →
      ∀ e ∈ (rs.foldl processStep acc).1, Q e := by
  intro rs
  induction rs with
  | nil => intro acc hacc _ e he; exact hacc e he
  | cons r rest ih =>
    intro acc hacc hrs e he
    simp only [List.foldl_cons] at he
    refine ih (processStep acc r) ?_ (fun r' hr' => hrs r' (List.mem_cons_of_mem r hr')) e he
    intro e' he'
    cases hs : r.success with
    | false =>
      simp only [processStep, hs] at he'
      exact hacc e' he'
    | true =>
      cases hr : r.response with
      | none =>
        simp only [processStep, hs, hr] at he'
        exact hacc e' he'
      | some p =>
        simp only [processStep, hs, hr, dictInsert] at he'
        split at he'
        · simp only [List.mem_map] at he'
          obtain ⟨q, hq, hqe⟩ := he'
          by_cases hqk : q.1 = r.model_name
          · simp only [hqk, if_true] at hqe
            subst hqe
            exact hrs r (List.mem_cons_self r rest) p hs hr
          · simp only [hqk, if_false] at hqe
            subst hqe
            exact hacc q hq
        · simp only [List.mem_append, List.mem_cons, List.not_mem_nil, or_false] at he'
          rcases he' with he' | he'
          · exact hacc e' he'
          · subst he'
            exact hrs r (List.mem_cons_self r rest) p hs hr

/-- A well-formed flagged prediction body, for concrete runs. -/
def goodBody : ModelPredictResponse :=
  { flagged := true, score := 1, details := [], latency_ms := 5 }

/-- C1: for every orchestration over a list of (distinct) enabled
backends, the sizes of `model_results` and `failed_models` add up to the
number of enabled backends, their key sets are disjoint, `model_results`
contains exactly the backends whose call succeeded (and `failed_models`
exactly those whose call failed), and `partial_failure` holds iff
`failed_models` is non-empty. -/
theorem validate_text_partition (request_id : String) (enabled : List String)
    (strategy : AggregationStrategy) (cbs : String → CircuitBreaker)
    (nowAllow nowRecord : Rat) (env : String → Nat → AttemptOutcome)
    (retryEnabled : Bool) (maxAttempts waitMs : Nat) (hnd : enabled.Nodup)
    (v : ValidateResponse)
    (hv : v = validate_text request_id enabled strategy cbs nowAllow nowRecord env
      retryEnabled maxAttempts waitMs) :
    (v.model_results.length + v.failed_models.length = enabled.length) ∧
    (∀ n : String, ¬(n ∈ v.model_results.map Prod.fst ∧ n ∈ v.failed_models)) ∧
    (∀ n : String, n ∈ v.model_results.map Prod.fst ↔
      n ∈ enabled ∧ (call_model n (cbs n) nowAllow nowRecord (env n) retryEnabled
        maxAttempts waitMs).1.success = true) ∧
    (∀ n : String, n ∈ v.failed_models ↔
      n ∈ enabled ∧ (call_model n (cbs n) nowAllow nowRecord (env n) retryEnabled
        maxAttempts waitMs).1.success = false) ∧
    (v.partial_failure = true ↔ v.failed_models ≠ []) := by
  subst hv
  have hkeys := callResults_mem_keys enabled cbs nowAllow nowRecord env retryEnabled
    maxAttempts waitMs hnd
  have hfailed := callResults_mem_failed enabled cbs nowAllow nowRecord env retryEnabled
    maxAttempts waitMs hnd
  have hlen := callResults_length enabled cbs nowAllow nowRecord env retryEnabled
    maxAttempts waitMs hnd
  refine ⟨?_, ?_, ?_, ?_, ?_⟩
  · simpa [validate_text] using hlen
  · rintro n ⟨hk, hf⟩
    have h1 := (hkeys n).mp (by simpa [validate_text] using hk)
    have h2 := (hfailed n).mp (by simpa [validate_text] using hf)
    simp [h1.2] at h2
  · intro n
    simpa [validate_text] using hkeys n
  · intro n
    simpa [validate_text] using hfailed n
  · simp only [validate_text, decide_eq_true_eq]
    exact List.length_pos

theorem validate_text_partition_witness :
    (validate_text "rid" ["prompt-guard", "pii-detect"] AggregationStrategy.ANY_FLAG
        (fun nm => CircuitBreaker.initBreaker nm 5 30 3) 0 0
        (fun _ _ => AttemptOutcome.ok goodBody) true 2 10).model_results.length
      + (validate_text "rid" ["prompt-guard", "pii-detect"] AggregationStrategy.ANY_FLAG
        (fun nm => CircuitBreaker.initBreaker nm 5 30 3) 0 0
        (fun _ _ => AttemptOutcome.ok goodBody) true 2 10).failed_models.length = 2 :=
  (validate_text_partition "rid" ["prompt-guard", "pii-detect"]
    AggregationStrategy.ANY_FLAG (fun nm => CircuitBreaker.initBreaker nm 5 30 3) 0 0
    (fun _ _ => AttemptOutcome.ok goodBody) true 2 10 (by simp) _ rfl).1

/-- C7: `flag_reasons` is exactly the ordered list of
`"{backend_name}_flagged"` entries for the successful backends that
flagged, in the order backends were enumerated; conversely every reasons
entry corresponds to a flagged entry of `model_results`, and every flagged
entry of `model_results` has its reason. -/
theorem flag_reasons_spec (request_id : String) (enabled : List String)
    (strategy : AggregationStrategy) (cbs : String → CircuitBreaker)
    (nowAllow nowRecord : Rat) (env : String → Nat → AttemptOutcome)
    (retryEnabled : Bool) (maxAttempts waitMs : Nat) (hnd : enabled.Nodup)
    (v : ValidateResponse)
    (hv : v = validate_text request_id enabled strategy cbs nowAllow nowRecord env
      retryEnabled maxAttempts waitMs) :
    (v.flag_reasons = (v.model_results.filter (fun p => p.2.flagged)).map
      (fun p => p.1 ++ "_flagged")) ∧
    (∀ s ∈ v.flag_reasons, ∃ p ∈ v.model_results, p.2.flagged = true ∧
      s = p.1 ++ "_flagged") ∧
    (∀ p ∈ v.model_results, p.2.flagged = true → (p.1 ++ "_flagged") ∈ v.flag_reasons) := by
  subst hv
  have hnd' : ((callResults enabled cbs nowAllow nowRecord env retryEnabled maxAttempts
      waitMs).map ModelCallResult.model_name).Nodup := by
    rw [callResults_names]; exact hnd
  have h1 : (validate_text request_id enabled strategy cbs nowAllow nowRecord env
      retryEnabled maxAttempts waitMs).flag_reasons =
      ((validate_text request_id enabled strategy cbs nowAllow nowRecord env
        retryEnabled maxAttempts waitMs).model_results.filter
        (fun p => p.2.flagged)).map (fun p => p.1 ++ "_flagged") := by
    simp only [validate_text]
    rw [processResults_eq_simple _ hnd']
    exact simple_reasons _
  refine ⟨h1, ?_, ?_⟩
  · intro s hs
    rw [h1] at hs
    simp only [List.mem_map, List.mem_filter] at hs
    obtain ⟨p, ⟨hp, hflag⟩, rfl⟩ := hs
    exact ⟨p, hp, hflag, rfl⟩
  · intro p hp hflag
    rw [h1]
    exact List.mem_map_of_mem _ (List.mem_filter.mpr ⟨hp, hflag⟩)

theorem flag_reasons_spec_witness :
    (validate_text "rid" ["prompt-guard"] AggregationStrategy.ANY_FLAG
        (fun nm => CircuitBreaker.initBreaker nm 5 30 3) 0 0
        (fun _ _ => AttemptOutcome.ok goodBody) true 2 10).flag_reasons =
      ((validate_text "rid" ["prompt-guard"] AggregationStrategy.ANY_FLAG
        (fun nm => CircuitBreaker.initBreaker nm 5 30 3) 0 0
        (fun _ _ => AttemptOutcome.ok goodBody) true 2 10).model_results.filter
        (fun p => p.2.flagged)).map (fun p => p.1 ++ "_flagged") :=
  (flag_reasons_spec "rid" ["prompt-guard"] AggregationStrategy.ANY_FLAG
    (fun nm => CircuitBreaker.initBreaker nm 5 30 3) 0 0
    (fun _ _ => AttemptOutcome.ok goodBody) true 2 10 (by simp) _ rfl).1

/-- C8: a 2xx reply whose body has a score outside [0,1] fails pydantic
validation and is treated as a backend error: the call returns no
prediction, a failure is recorded on the backend's breaker, the backend
lands in `failed_models` of any orchestration containing it, and every
prediction that does appear in `model_results` has a score in [0,1]. -/
theorem out_of_range_score_spec (model_name : String) (cb : CircuitBreaker)
    (nowAllow nowRecord : Rat) (env : Nat → AttemptOutcome) (retryEnabled : Bool)
    (maxAttempts waitMs : Nat) (body : ModelPredictResponse)
    (hbody : env 0 = AttemptOutcome.ok body)
    (hrange : ¬(0 ≤ body.score ∧ body.score ≤ 1))
    (hallow : (cb.allow_request nowAllow).1 = true) :
    singleAttempt (AttemptOutcome.ok body) = Except.error CallError.parse ∧
    (call_model model_name cb nowAllow nowRecord env retryEnabled maxAttempts
      waitMs).1.success = false ∧
    (call_model model_name cb nowAllow nowRecord env retryEnabled maxAttempts
      waitMs).1.response = none ∧
    (call_model model_name cb nowAllow nowRecord env retryEnabled maxAttempts waitMs).2
      = ((cb.allow_request nowAllow).2).record_failure nowRecord ∧
    (∀ (request_id : String) (enabled : List String) (strategy : AggregationStrategy)
      (cbs : String → CircuitBreaker) (envAll : String → Nat → AttemptOutcome),
      enabled.Nodup → model_name ∈ enabled → cbs model_name = cb →
      envAll model_name = env →
      model_name ∈ (validate_text request_id enabled strategy cbs nowAllow nowRecord
        envAll retryEnabled maxAttempts waitMs).failed_models) ∧
    (∀ (request_id : String) (enabled : List String) (strategy : AggregationStrategy)
      (cbs : String → CircuitBreaker) (envAll : String → Nat → AttemptOutcome)
      (p : String × ModelResultResponse),
      p ∈ (validate_text request_id enabled strategy cbs nowAllow nowRecord envAll
        retryEnabled maxAttempts waitMs).model_results →
      0 ≤ p.2.score ∧ p.2.score ≤ 1) := by
  have hparse : singleAttempt (AttemptOutcome.ok body) = Except.error CallError.parse := by
    simp only [singleAttempt, modelValidate]
    rw [if_neg (by tauto)]
  have henv0 : singleAttempt (env 0) = Except.error CallError.parse := by
    rw [hbody]; exact hparse
  have hres : (if retryEnabled = true then (callWithRetry env maxAttempts waitMs).1
      else singleAttempt (env 0)) = Except.error CallError.parse := by
    by_cases hre : retryEnabled = true
    · rw [if_pos hre]
      unfold callWithRetry
      rw [retryGo_nontransient env waitMs maxAttempts 0 CallError.parse henv0 rfl]
    · rw [if_neg hre]; exact henv0
  have hnotfalse : ¬ ((cb.allow_request nowAllow).1 = false) := by simp [hallow]
  have hcall : call_model model_name cb nowAllow nowRecord env retryEnabled maxAttempts waitMs
      = ({ model_name := model_name
           success := false
           response := none
           error := some (errorMessage model_name maxAttempts CallError.parse) },
         ((cb.allow_request nowAllow).2).record_failure nowRecord) := by
    simp only [call_model]
    rw [if_neg hnotfalse, hres]
  refine ⟨hparse, by rw [hcall], by rw [hcall], by rw [hcall], ?_, ?_⟩
  · intro request_id enabled strategy cbs envAll hnd hmem hcbs henv
    have hfail : (call_model model_name (cbs model_name) nowAllow nowRecord
        (envAll model_name) retryEnabled maxAttempts waitMs).1.success = false := by
      rw [hcbs, henv, hcall]
    have hm := (callResults_mem_failed enabled cbs nowAllow nowRecord envAll retryEnabled
      maxAttempts waitMs hnd model_name).mpr ⟨hmem, hfail⟩
    simpa [validate_text] using hm
  · intro request_id enabled strategy cbs envAll p hp
    refine processResults_fold_entries (fun e => 0 ≤ e.2.score ∧ e.2.score ≤ 1)
      (callResults enabled cbs nowAllow nowRecord envAll retryEnabled maxAttempts waitMs)
      ([], [], []) (by simp) ?_ p (by simpa [validate_text, processResults] using hp)
    intro r hr q hq hresp
    simp only [callResults, List.mem_map] at hr
    obtain ⟨m, hm, rfl⟩ := hr
    have hsc := call_model_response_score m (cbs m) nowAllow nowRecord (envAll m)
      retryEnabled maxAttempts waitMs q hresp
    simpa [toModelResult] using hsc

/-- A prediction body with an out-of-range score, for concrete runs. -/
def badBody : ModelPredictResponse :=
  { flagged := true, score := 2, details := [], latency_ms := 5 }

theorem out_of_range_score_spec_witness :
    (call_model "prompt-guard" (CircuitBreaker.initBreaker "prompt-guard" 5 30 3) 0 0
      (fun _ => AttemptOutcome.ok badBody) true 2 10).1.success = false :=
  (out_of_range_score_spec "prompt-guard" (CircuitBreaker.initBreaker "prompt-guard" 5 30 3)
    0 0 (fun _ => AttemptOutcome.ok badBody) true 2 10 badBody rfl
    (by norm_num [badBody]) (by decide)).2.1

/-- C4: a request with a non-empty API key gets 503 exactly when every
enabled backend failed; in every other configuration the route returns the
orchestrator's verdict with `partial_failure` true iff some backend failed
and `failed_models` holding exactly the failed backends. -/
theorem validate_route_503_iff_all_failed (x_api_key request_id : String)
    (cbs : String → CircuitBreaker) (nowAllow nowRecord : Rat)
    (env : String → Nat → AttemptOutcome) (retryEnabled : Bool)
    (maxAttempts waitMs : Nat) (hkey : ¬ (x_api_key = "")) :
    (validate_route x_api_key request_id cbs nowAllow nowRecord env retryEnabled
        maxAttempts waitMs = Except.error 503 ↔
      ∀ n ∈ configuredModels, (call_model n (cbs n) nowAllow nowRecord (env n)
        retryEnabled maxAttempts waitMs).1.success = false) ∧
    ((¬ ∀ n ∈ configuredModels, (call_model n (cbs n) nowAllow nowRecord (env n)
        retryEnabled maxAttempts waitMs).1.success = false) →
      validate_route x_api_key request_id cbs nowAllow nowRecord env retryEnabled
          maxAttempts waitMs = Except.ok (validate_text request_id configuredModels
          AggregationStrategy.ANY_FLAG cbs nowAllow nowRecord env retryEnabled
          maxAttempts waitMs) ∧
      ((validate_text request_id configuredModels AggregationStrategy.ANY_FLAG cbs
          nowAllow nowRecord env retryEnabled maxAttempts waitMs).partial_failure = true ↔
        ∃ n ∈ configuredModels, (call_model n (cbs n) nowAllow nowRecord (env n)
          retryEnabled maxAttempts waitMs).1.success = false) ∧
      (∀ n : String, n ∈ (validate_text request_id configuredModels
          AggregationStrategy.ANY_FLAG cbs nowAllow nowRecord env retryEnabled maxAttempts
          waitMs).failed_models ↔
        n ∈ configuredModels ∧ (call_model n (cbs n) nowAllow nowRecord (env n)
          retryEnabled maxAttempts waitMs).1.success = false)) := by
  have hnd : configuredModels.Nodup := by simp [configuredModels]
  have hnd' : ((callResults configuredModels cbs nowAllow nowRecord env retryEnabled
      maxAttempts waitMs).map ModelCallResult.model_name).Nodup := by
    rw [callResults_names]; exact hnd
  have hmemf := callResults_mem_failed configuredModels cbs nowAllow nowRecord env
    retryEnabled maxAttempts waitMs hnd
  have hfl : (processResults (callResults configuredModels cbs nowAllow nowRecord env
      retryEnabled maxAttempts waitMs)).2.1 =
      ((callResults configuredModels cbs nowAllow nowRecord env retryEnabled maxAttempts
        waitMs).filter (fun r => !(r.success && r.response.isSome))).map
        ModelCallResult.model_name := by
    rw [processResults_eq_simple _ hnd']
    exact simple_failed _
  have hrs_len : (callResults configuredModels cbs nowAllow nowRecord env retryEnabled
      maxAttempts waitMs).length = 4 := by
    simp [callResults, configuredModels]
  have hq : ∀ m : String,
      ((!((call_model m (cbs m) nowAllow nowRecord (env m) retryEnabled maxAttempts
        waitMs).1.success && (call_model m (cbs m) nowAllow nowRecord (env m) retryEnabled
        maxAttempts waitMs).1.response.isSome)) = true) ↔
      (call_model m (cbs m) nowAllow nowRecord (env m) retryEnabled maxAttempts
        waitMs).1.success = false := by
    intro m
    constructor
    · intro h
      cases hx : (call_model m (cbs m) nowAllow nowRecord (env m) retryEnabled maxAttempts
        waitMs).1.success
      · rfl
      · exfalso
        have hsome := call_model_success_response m (cbs m) nowAllow nowRecord (env m)
          retryEnabled maxAttempts waitMs hx
        simp [hx, hsome] at h
    · intro h
      simp [h]
  have hall : (∀ r ∈ callResults configuredModels cbs nowAllow nowRecord env retryEnabled
      maxAttempts waitMs, (!(r.success && r.response.isSome)) = true) ↔
      (∀ n ∈ configuredModels, (call_model n (cbs n) nowAllow nowRecord (env n)
        retryEnabled maxAttempts waitMs).1.success = false) := by
    constructor
    · intro h n hn
      refine (hq n).mp (h _ ?_)
      simp only [callResults, List.mem_map]
      exact ⟨n, hn, rfl⟩
    · intro h r hr
      simp only [callResults, List.mem_map] at hr
      obtain ⟨n, hn, rfl⟩ := hr
      exact (hq n).mpr (h n hn)
  have hlen4 : ((processResults (callResults configuredModels cbs nowAllow nowRecord env
      retryEnabled maxAttempts waitMs)).2.1.length = 4) ↔
      (∀ n ∈ configuredModels, (call_model n (cbs n) nowAllow nowRecord (env n)
        retryEnabled maxAttempts waitMs).1.success = false) := by
    rw [hfl, List.length_map, show (4 : Nat) = (callResults configuredModels cbs nowAllow
      nowRecord env retryEnabled maxAttempts waitMs).length from hrs_len.symm,
      List.filter_length_eq_length]
    exact hall
  have hroute : validate_route x_api_key request_id cbs nowAllow nowRecord env retryEnabled
      maxAttempts waitMs =
      (if (validate_text request_id configuredModels AggregationStrategy.ANY_FLAG cbs
          nowAllow nowRecord env retryEnabled maxAttempts waitMs).partial_failure = true ∧
          (validate_text request_id configuredModels AggregationStrategy.ANY_FLAG cbs
          nowAllow nowRecord env retryEnabled maxAttempts waitMs).failed_models.length = 4
        then Except.error 503
        else Except.ok (validate_text request_id configuredModels
          AggregationStrategy.ANY_FLAG cbs nowAllow nowRecord env retryEnabled maxAttempts
          waitMs)) := by
    simp only [validate_route, if_neg hkey]
  constructor
  · rw [hroute]
    constructor
    · intro h
      by_cases hcond : (validate_text request_id configuredModels
          AggregationStrategy.ANY_FLAG cbs nowAllow nowRecord env retryEnabled maxAttempts
          waitMs).partial_failure = true ∧
          (validate_text request_id configuredModels AggregationStrategy.ANY_FLAG cbs
          nowAllow nowRecord env retryEnabled maxAttempts waitMs).failed_models.length = 4
      · exact hlen4.mp hcond.2
      · rw [if_neg hcond] at h
        exact absurd h (by simp)
    · intro h
      have hl4 : (validate_text request_id configuredModels AggregationStrategy.ANY_FLAG
          cbs nowAllow nowRecord env retryEnabled maxAttempts
          waitMs).failed_models.length = 4 := hlen4.mpr h
      have hp : (validate_text request_id configuredModels AggregationStrategy.ANY_FLAG
          cbs nowAllow nowRecord env retryEnabled maxAttempts
          waitMs).partial_failure = true := by
        show decide (0 < (processResults (callResults configuredModels cbs nowAllow
          nowRecord env retryEnabled maxAttempts waitMs)).2.1.length) = true
        rw [decide_eq_true_eq]
        have : (processResults (callResults configuredModels cbs nowAllow nowRecord env
          retryEnabled maxAttempts waitMs)).2.1.length = 4 := hl4
        omega
      rw [if_pos ⟨hp, hl4⟩]
  · intro hnall
    have hl4 : ¬ ((validate_text request_id configuredModels AggregationStrategy.ANY_FLAG
        cbs nowAllow nowRecord env retryEnabled maxAttempts
        waitMs).failed_models.length = 4) := fun h => hnall (hlen4.mp h)
    refine ⟨?_, ?_, ?_⟩
    · rw [hroute, if_neg]
      rintro ⟨_, hlen⟩
      exact hl4 hlen
    · show (decide (0 < (processResults (callResults configuredModels cbs nowAllow
        nowRecord env retryEnabled maxAttempts waitMs)).2.1.length) = true) ↔ _
      rw [decide_eq_true_eq, List.length_pos_iff_exists_mem]
      constructor
      · rintro ⟨a, ha⟩
        have hm := (hmemf a).mp ha
        exact ⟨a, hm.1, hm.2⟩
      · rintro ⟨n, hn, hf⟩
        exact ⟨n, (hmemf n).mpr ⟨hn, hf⟩⟩
    · intro n
      exact hmemf n

theorem validate_route_503_iff_all_failed_witness :
    validate_route "key" "rid" (fun nm => CircuitBreaker.initBreaker nm 5 30 3) 0 0
        (fun _ _ => AttemptOutcome.ok goodBody) true 2 10
      = Except.ok (validate_text "rid" configuredModels AggregationStrategy.ANY_FLAG
        (fun nm => CircuitBreaker.initBreaker nm 5 30 3) 0 0
        (fun _ _ => AttemptOutcome.ok goodBody) true 2 10) :=
  ((validate_route_503_iff_all_failed "key" "rid"
    (fun nm => CircuitBreaker.initBreaker nm 5 30 3) 0 0
    (fun _ _ => AttemptOutcome.ok goodBody) true 2 10 (by decide)).2 (by decide)).1
